import Mathlib

/-!
Shallow embedding of the AutoEntry scraping core
(src/jobs/processors/puppeteerProcessor.js): the action interpreter,
pagination controller, session management and summary computation, with
proofs about the specified behaviour.  JS values are modelled by `JSVal`
(numbers as exact rationals), the browser driver by a deterministic
`World`, and observable session behaviour by an event trace.
-/

namespace AutoEntry

/-- JS runtime values as they occur in job configurations and results. -/
inductive JSVal where
  | vNull
  | vBool (b : Bool)
  | vNum (q : ℚ)
  | vStr (s : String)
  | vList (xs : List JSVal)

/-- JS truthiness of a value. -/
def jsTruthy : JSVal → Bool
  | .vNull => false
  | .vBool b => b
  | .vNum q => if q = 0 then false else true
  | .vStr s => if s = "" then false else true
  | .vList _ => true

/-- Whether a value is the JS null used to drop extract results. -/
def JSVal.isNull : JSVal → Bool
  | .vNull => true
  | _ => false

/-- Truthiness of an optional string field (`undefined` or a string). -/
def strTruthy (o : Option String) : Bool :=
  if o.getD "" = "" then false else true

/-- Whether the first list is an initial segment of the second. -/
def leadsWith : List Char → List Char → Bool
  | [], _ => true
  | _ :: _, [] => false
  | a :: as, b :: bs => a = b && leadsWith as bs

/-- Whether `sub` occurs as a contiguous run inside the second list. -/
def charsContains (sub : List Char) : List Char → Bool
  | [] => sub.isEmpty
  | c :: cs => leadsWith sub (c :: cs) || charsContains sub cs

/-- JS `String.prototype.includes`. -/
def jsIncludes (s sub : String) : Bool := charsContains sub.toList s.toList

/-- JS `String.prototype.trim` (ASCII whitespace approximation). -/
def jsTrim (s : String) : String :=
  String.mk (((s.toList.dropWhile Char.isWhitespace).reverse.dropWhile
    Char.isWhitespace).reverse)

/-- The URL-scheme test of the source: the regular expression for
an http or https scheme anchored at the start of the string. -/
def startsHttp (s : String) : Bool :=
  leadsWith "http://".toList s.toList || leadsWith "https://".toList s.toList

/-- The replace call of the extract action: drop every character that is
not a digit, a dot or a minus sign. -/
def stripNonNumeric (s : String) : String :=
  String.mk (s.toList.filter (fun c => c.isDigit || c = '.' || c = '-'))

/-- Decimal digits to a natural number. -/
def digitsVal (ds : List Char) : Nat :=
  ds.foldl (fun n c => 10 * n + (c.toNat - '0'.toNat)) 0

/-- The parts of a parsed JS float literal: sign, integer digits, fraction
digits and exponent.  Absence of any digits models a NaN outcome. -/
structure FloatParts where
  neg : Bool
  intDigits : List Char
  fracDigits : List Char
  expNeg : Bool
  expDigits : List Char
deriving DecidableEq, Repr

/-- The longest-valid-prefix scan of JS `parseFloat`. -/
def parseFloatParts (s : String) : Option FloatParts :=
  let cs := s.toList.dropWhile Char.isWhitespace
  let sgn : Bool × List Char :=
    match cs with
    | '-' :: t => (true, t)
    | '+' :: t => (false, t)
    | _ => (false, cs)
  let ip := sgn.2.takeWhile Char.isDigit
  let r1 := sgn.2.dropWhile Char.isDigit
  let fpr : List Char × List Char :=
    match r1 with
    | '.' :: t => (t.takeWhile Char.isDigit, t.dropWhile Char.isDigit)
    | _ => ([], r1)
  if ip.isEmpty && fpr.1.isEmpty then none
  else
    let ex : Bool × List Char :=
      match fpr.2 with
      | 'e' :: t =>
        (match t with
         | '-' :: u => (true, u.takeWhile Char.isDigit)
         | '+' :: u => (false, u.takeWhile Char.isDigit)
         | _ => (false, t.takeWhile Char.isDigit))
      | 'E' :: t =>
        (match t with
         | '-' :: u => (true, u.takeWhile Char.isDigit)
         | '+' :: u => (false, u.takeWhile Char.isDigit)
         | _ => (false, t.takeWhile Char.isDigit))
      | _ => (false, [])
    some { neg := sgn.1, intDigits := ip, fracDigits := fpr.1,
           expNeg := ex.1, expDigits := ex.2 }

/-- The rational value of parsed float parts. -/
def FloatParts.val (p : FloatParts) : ℚ :=
  let mant : ℚ :=
    (digitsVal p.intDigits : ℚ) +
      (digitsVal p.fracDigits : ℚ) / ((10 ^ p.fracDigits.length : ℕ) : ℚ)
  let signed : ℚ := if p.neg then -mant else mant
  let e : ℕ := digitsVal p.expDigits
  if p.expNeg then signed / ((10 ^ e : ℕ) : ℚ) else signed * ((10 ^ e : ℕ) : ℚ)

/-- JS `parseFloat`, idealised over exact decimal rationals (no claim
depends on binary floating-point rounding). -/
def parseFloatQ (s : String) : Option ℚ := (parseFloatParts s).map FloatParts.val

/-- A DOM element, as far as the processor inspects one. -/
structure Elem where
  textContent : String
  innerHTML : String
  getAttr : String → Option String
  disabled : Bool
  classList : List String
  styleDisplay : String
  styleVisibility : String

/-- One document the browser can show: the deterministic driver model
behind the page operations the processor uses.  `waitOk` tells whether a
selector wait resolves within its bound; clicking and typing on a present
element always succeed in this driver. -/
structure PageState where
  title : String
  url : String
  query : String → List Elem
  waitOk : String → Bool
  evalScript : String → Except String JSVal

/-- The condition object of an action. -/
structure Condition where
  ifExists : Bool := false
  ifNotExists : Bool := false
  ifTextContains : Option String := none
  optional : Bool := false
deriving DecidableEq

/-- One action of a job configuration.  `type := none` models a missing or
non-string `action.type`; `attr` is the JS `attribute` field. -/
structure Action where
  type : Option String := none
  selector : Option String := none
  name : Option String := none
  condition : Condition := {}
  critical : Bool := false
  delayAfter : Option Nat := none
  text : Option String := none
  attr : Option String := none
  innerHTML : Bool := false
  parseNumber : Bool := false
  script : Option String := none
  ms : Option Nat := none
  path : Option String := none
  fullPage : Bool := true
  toBottom : Bool := false
  toSelector : Bool := false
  x : Option Nat := none
  y : Option Nat := none
  timeout : Option Nat := none
  visible : Bool := true
deriving DecidableEq

/-- The driver's failure message for a selector wait that timed out; its
text contains the word timeout, which the pagination policy inspects. -/
def timeoutMsg (sel : String) : String :=
  "TimeoutError: waiting for selector " ++ sel ++ " failed: timeout exceeded"

/-- The per-element body of the extract action's `$$eval` callback. -/
def extractValue (a : Action) (e : Elem) : JSVal :=
  let v : JSVal :=
    if strTruthy a.attr then
      match e.getAttr (a.attr.getD "") with
      | some s => .vStr s
      | none => .vNull
    else if a.innerHTML then .vStr e.innerHTML
    else .vStr (jsTrim e.textContent)
  if a.parseNumber && jsTruthy v then
    match v with
    | .vStr s =>
      match parseFloatQ (stripNonNumeric s) with
      | some q => .vNum q
      | none => v
    | _ => v
  else if jsTruthy v then v else .vNull

/-- Pre-condition evaluation: `true` means the action is skipped (the
interpreter returns null without dispatching). -/
def condSkip (ps : PageState) (a : Action) : Bool :=
  let sel := a.selector.getD ""
  (a.condition.ifExists && strTruthy a.selector && (ps.query sel).isEmpty)
  || (a.condition.ifNotExists && strTruthy a.selector
        && !(ps.query sel).isEmpty)
  || (strTruthy a.condition.ifTextContains && strTruthy a.selector &&
      match ps.query sel with
      | [] => false
      | e :: _ =>
        if e.textContent = "" then true
        else !(jsIncludes e.textContent (a.condition.ifTextContains.getD "")))

/-- The recognised action kinds: the switch cases of the source. -/
def recognizedKind (ty : String) : Bool :=
  decide (ty = "click") || decide (ty = "type") || decide (ty = "extract") ||
  decide (ty = "waitForSelector") || decide (ty = "delay") ||
  decide (ty = "screenshot") || decide (ty = "scroll") ||
  decide (ty = "evaluate")

/-- The switch statement of `executeAction`: dispatch by action kind. -/
def dispatchAction (ps : PageState) (now : Nat) (a : Action) :
    Except String JSVal :=
  match a.type with
  | none => .error "Unknown action type: undefined"
  | some ty =>
    if ty = "click" then
      if !strTruthy a.selector then .error "Selector required for click action"
      else if ps.waitOk (a.selector.getD "") then .ok .vNull
      else .error (timeoutMsg (a.selector.getD ""))
    else if ty = "type" then
      if !strTruthy a.selector || a.text.isNone then
        .error "Selector and text required for type action"
      else if ps.waitOk (a.selector.getD "") then .ok .vNull
      else .error (timeoutMsg (a.selector.getD ""))
    else if ty = "extract" then
      if !strTruthy a.selector then
        .error "Selector required for extract action"
      else if !ps.waitOk (a.selector.getD "") then
        if a.condition.optional then .ok (.vList [])
        else .error (timeoutMsg (a.selector.getD ""))
      else
        .ok (.vList (((ps.query (a.selector.getD "")).map
          (extractValue a)).filter (fun v => !v.isNull)))
    else if ty = "waitForSelector" then
      if !strTruthy a.selector then
        .error "Selector required for waitForSelector action"
      else if ps.waitOk (a.selector.getD "") then .ok .vNull
      else .error (timeoutMsg (a.selector.getD ""))
    else if ty = "delay" then .ok .vNull
    else if ty = "screenshot" then
      .ok (.vStr (if strTruthy a.path then a.path.getD ""
        else "screenshot-" ++ toString now ++ ".png"))
    else if ty = "scroll" then .ok .vNull
    else if ty = "evaluate" then
      if !strTruthy a.script then .error "Script required for evaluate action"
      else ps.evalScript (a.script.getD "")
    else .error ("Unknown action type: " ++ ty)

/-- `executeAction`: conditions first, then kind dispatch. -/
def executeAction (ps : PageState) (now : Nat) (a : Action) :
    Except String JSVal :=
  if condSkip ps a then .ok .vNull else dispatchAction ps now a

/-- One recorded action-level error. -/
structure ErrRec where
  actionIndex : Nat
  action : String
  selector : Option String
  message : String
deriving DecidableEq

/-- The per-page accumulator of `processPage` (`scrapedData`). -/
structure ScrapedData where
  pageTitle : String
  currentUrl : String
  fields : List (String × JSVal)
  errors : List ErrRec

/-- JS object assignment on the field map: overwrite in place, else
append, preserving key order. -/
def insertField : List (String × JSVal) → String → JSVal →
    List (String × JSVal)
  | [], k, v => [(k, v)]
  | (k0, v0) :: t, k, v =>
    if k0 = k then (k0, v) :: t else (k0, v0) :: insertField t k v

/-- The action loop of `processPage`: either the accumulated data or a
propagated critical failure, together with the indices of the actions
that were handed to `executeAction`. -/
def runActions (ps : PageState) (now : Nat) :
    List Action → Nat → ScrapedData → Except String ScrapedData × List Nat
  | [], _, d => (.ok d, [])
  | a :: rest, i, d =>
    match a.type with
    | none => runActions ps now rest (i + 1) d
    | some ty =>
      match executeAction ps now a with
      | .ok v =>
        let d2 := if jsTruthy v && strTruthy a.name then
            { d with fields := insertField d.fields (a.name.getD "") v }
          else d
        let r := runActions ps now rest (i + 1) d2
        (r.1, i :: r.2)
      | .error m =>
        let d2 := { d with errors := d.errors ++ [⟨i, ty, a.selector, m⟩] }
        if a.critical then (.error m, [i])
        else
          let r := runActions ps now rest (i + 1) d2
          (r.1, i :: r.2)

/-- Seed of a page's data: title and resolved URL, read up front. -/
def seedData (ps : PageState) : ScrapedData :=
  { pageTitle := ps.title, currentUrl := ps.url, fields := [], errors := [] }

/-- `processPage`: seed with title and URL, then run the actions. -/
def processPage (ps : PageState) (now : Nat) (acts : List Action) :
    Except String ScrapedData × List Nat :=
  runActions ps now acts 0 (seedData ps)

/-- The disabled-state detection on a candidate next-page element. -/
def isDisabledElem (e : Elem) : Bool :=
  e.disabled || e.classList.any (fun c => decide (c = "disabled")) ||
  decide (e.getAttr "aria-disabled" = some "true") ||
  decide (e.styleDisplay = "none") || decide (e.styleVisibility = "hidden")

/-- `checkAndNavigateToNextPage`, reduced to its decision: whether the
loop advances (next element present and not disabled; the navigation
waits tolerate their own timeouts and never fail). -/
def checkAndNavigateToNextPage (ps : PageState) (sel : String) : Bool :=
  match ps.query sel with
  | [] => false
  | e :: _ => if isDisabledElem e then false else true

/-- One entry of `allResults`.  A success entry spreads the page data into
the result object; an error entry carries only page index, message and
timestamp (`url`, title and fields are absent, modelled by `none`/`[]`). -/
structure PageResult where
  page : Nat
  url : Option String
  timestamp : Nat
  pageTitle : Option String
  currentUrl : Option String
  fields : List (String × JSVal)
  errors : List ErrRec
  error : Option String

/-- The success entry pushed after `processPage` returns. -/
def successResult (cp : Nat) (ps : PageState) (d : ScrapedData) (now : Nat) :
    PageResult :=
  { page := cp, url := some ps.url, timestamp := now,
    pageTitle := some d.pageTitle, currentUrl := some d.currentUrl,
    fields := d.fields, errors := d.errors, error := none }

/-- The error entry pushed by the per-page catch. -/
def errorResult (cp : Nat) (m : String) (now : Nat) : PageResult :=
  { page := cp, url := none, timestamp := now, pageTitle := none,
    currentUrl := none, fields := [], errors := [], error := some m }

/-- The structural keys excluded from the summary's data-type listing. -/
def structuralKeys : List String :=
  ["page", "url", "timestamp", "pageTitle", "currentUrl", "errors"]

/-- Membership in the structural-key list (`includes`). -/
def isStructuralKey (k : String) : Bool :=
  structuralKeys.any (fun s => decide (s = k))

/-- The JS object keys of a result entry, in property order. -/
def PageResult.jsKeys (r : PageResult) : List String :=
  match r.error with
  | some _ => ["page", "error", "timestamp"]
  | none =>
    ["page", "url", "timestamp", "pageTitle", "currentUrl"]
      ++ r.fields.map Prod.fst
      ++ (if r.errors.isEmpty then [] else ["errors"])

/-- The JS value found at a key of a result entry (spread semantics: a
page-data field overrides a structural key of the same name). -/
def PageResult.valueAt (r : PageResult) (k : String) : Option JSVal :=
  match r.fields.lookup k with
  | some v => some v
  | none =>
    if k = "page" then some (.vNum r.page)
    else if k = "timestamp" then some (.vStr (toString r.timestamp))
    else
      match r.error with
      | some m => if k = "error" then some (.vStr m) else none
      | none =>
        if k = "url" then r.url.map .vStr
        else if k = "pageTitle" then r.pageTitle.map .vStr
        else if k = "currentUrl" then r.currentUrl.map .vStr
        else if k = "errors" then
          (if r.errors.isEmpty then none
           else some (.vList (r.errors.map (fun _ => .vNull))))
        else none

/-- `Array.isArray(value) ? value.length : 0`. -/
def arrLen : Option JSVal → Nat
  | some (.vList xs) => xs.length
  | _ => 0

/-- The summary record returned with a job result.  The two optional
components are absent when no page succeeded. -/
structure Summary where
  totalPages : Nat
  successfulPages : Nat
  errorPages : Nat
  totalErrors : Nat
  dataTypes : Option (List String)
  totalItemsExtracted : Option Nat
deriving DecidableEq, Repr

/-- `generateSummary`, over the final result sequence. -/
def generateSummary (results : List PageResult) : Summary :=
  let succ := results.filter (fun r => !strTruthy r.error)
  let base : Summary :=
    { totalPages := results.length,
      successfulPages := succ.length,
      errorPages := (results.filter (fun r => strTruthy r.error)).length,
      totalErrors := results.foldl (fun sum r => sum + r.errors.length) 0,
      dataTypes := none, totalItemsExtracted := none }
  match succ with
  | [] => base
  | first :: _ =>
    let dts := first.jsKeys.filter (fun k => !isStructuralKey k)
    { base with
      dataTypes := some dts,
      totalItemsExtracted := some (succ.foldl (fun sum r =>
        sum + dts.foldl (fun ps k => ps + arrLen (r.valueAt k)) 0) 0) }

/-- The `actions` value of a job configuration: absent (defaults to the
empty sequence), a sequence, or a present non-sequence value. -/
inductive ActionsField where
  | undef
  | arr (as : List Action)
  | nonArray (v : JSVal)

/-- The pagination settings of a job configuration.  `maxPages` is kept as
a raw JS value so that validation is modelled on arbitrary inputs. -/
structure Pagination where
  nextButtonSelector : Option String := none
  maxPages : Option JSVal := none
  delayBetweenPages : Option Nat := none

/-- The global wait condition. -/
structure WaitConditions where
  selector : Option String := none
  delay : Option Nat := none

/-- A job configuration (`job.data`). -/
structure JobData where
  url : Option JSVal := none
  actions : ActionsField := .undef
  pagination : Pagination := {}
  waitConditions : WaitConditions := {}
  saveScreenshots : Bool := false
  screenshotDir : String := "./screenshots"

/-- The validation block at the head of the processor: the first failing
check's message, or none.  It runs before any browser resource exists. -/
def validate (d : JobData) : Option String :=
  if !(match d.url with | none => false | some v => jsTruthy v) then
    some "URL is required for puppeteerProcessor."
  else
    match d.url with
    | some (.vStr s) =>
      if !startsHttp s then
        some "Invalid URL format: must start with http or https."
      else
        match d.actions with
        | .nonArray _ => some "Actions must be an array."
        | _ =>
          match d.pagination.maxPages with
          | some mp =>
            if jsTruthy mp &&
                !(match mp with
                  | .vNum q => decide (1 ≤ q)
                  | _ => false) then
              some "pagination.maxPages must be a positive number."
            else none
          | none => none
    | _ => some "Invalid URL format: must start with http or https."

/-- The action list after destructuring (`actions = []` when absent; a
non-sequence value never reaches this point because validation rejects
it). -/
def actionsOf : ActionsField → List Action
  | .undef => []
  | .arr as => as
  | .nonArray _ => []

/-- `currentPage < (pagination.maxPages || Infinity)`: the guard in front
of the next-page check.  A falsy `maxPages` yields Infinity; a truthy
non-number cannot reach this point (validation rejects it) and is mapped
to the JS NaN comparison, which is false. -/
def jsLtMax (cp : Nat) (mp : Option JSVal) : Bool :=
  match mp with
  | some (.vNum q) => if q = 0 then true else decide ((cp : ℚ) < q)
  | some v => !jsTruthy v
  | none => true

/-- `currentPage <= (pagination.maxPages || 10)`: the do-while guard, with
the same conventions as `jsLtMax`. -/
def jsLeCeil (cp : Nat) (mp : Option JSVal) : Bool :=
  match mp with
  | some (.vNum q) =>
    if q = 0 then decide ((cp : ℚ) ≤ 10) else decide ((cp : ℚ) ≤ q)
  | some v => if jsTruthy v then false else decide ((cp : ℚ) ≤ 10)
  | none => decide ((cp : ℚ) ≤ 10)

/-- Observable browser-session events of one invocation. -/
inductive Ev where
  | launch
  | close
  | goto
  | dispatch (cp : Nat) (idx : Nat)
  | checkNext (cp : Nat)
  | clickNext (cp : Nat)
deriving DecidableEq, Repr

/-- The deterministic driver and site model for one invocation.  `pages i`
is the document shown after `i` next-page navigations (index 0 is the
initial blank page, index 1 the target URL); clicking the next element on
page `i` lands on page `i + 1`. -/
structure World where
  launchOk : Bool := true
  newPageOk : Bool := true
  gotoErr : Option String := none
  pages : Nat → PageState
  now : Nat := 0

/-- One iteration of the do-while pagination loop (the body of the
per-page try/catch), in continuation style: `recur` re-enters the loop
with the next page index and browser position.  Returns the result
entries produced from this iteration on, and the emitted events. -/
def pagStep (w : World) (acts : List Action) (pag : Pagination)
    (wc : WaitConditions) (recur : Nat → Nat → List PageResult × List Ev)
    (cp bp : Nat) : List PageResult × List Ev :=
  let nav : Except String (Nat × List Ev) :=
    if cp = 1 then
      match w.gotoErr with
      | some m => .error m
      | none =>
        if strTruthy wc.selector &&
            !((w.pages 1).waitOk (wc.selector.getD "")) then
          .error (timeoutMsg (wc.selector.getD ""))
        else .ok (1, [.goto])
    else .ok (bp, [])
  match nav with
  | .error m =>
    let res := errorResult cp m w.now
    if strTruthy pag.nextButtonSelector && jsIncludes m "timeout" then
      ([res], [])
    else if strTruthy pag.nextButtonSelector && jsLeCeil (cp + 1) pag.maxPages then
      let rest := recur (cp + 1) bp
      (res :: rest.1, rest.2)
    else ([res], [])
  | .ok (bp2, navEvs) =>
    let pr := processPage (w.pages bp2) w.now acts
    let dEvs := navEvs ++ pr.2.map (Ev.dispatch cp)
    match pr.1 with
    | .error m =>
      let res := errorResult cp m w.now
      if strTruthy pag.nextButtonSelector && jsIncludes m "timeout" then
        ([res], dEvs)
      else if strTruthy pag.nextButtonSelector &&
          jsLeCeil (cp + 1) pag.maxPages then
        let rest := recur (cp + 1) bp2
        (res :: rest.1, dEvs ++ rest.2)
      else ([res], dEvs)
    | .ok data =>
      let res := successResult cp (w.pages bp2) data w.now
      if strTruthy pag.nextButtonSelector && jsLtMax cp pag.maxPages then
        if checkAndNavigateToNextPage (w.pages bp2)
            (pag.nextButtonSelector.getD "") then
          if strTruthy pag.nextButtonSelector &&
              jsLeCeil (cp + 1) pag.maxPages then
            let rest := recur (cp + 1) (bp2 + 1)
            (res :: rest.1, dEvs ++ [.checkNext cp, .clickNext cp] ++ rest.2)
          else ([res], dEvs ++ [.checkNext cp, .clickNext cp])
        else ([res], dEvs ++ [.checkNext cp])
      else ([res], dEvs)

/-- The pagination loop, fuelled.  The fuel is chosen so large that it
never runs out (the loop guard bounds the page index by the configured or
default ceiling); an exhausted fuel returns the empty suffix. -/
def pagLoop (w : World) (acts : List Action) (pag : Pagination)
    (wc : WaitConditions) : Nat → Nat → Nat → List PageResult × List Ev
  | 0, _, _ => ([], [])
  | fuel + 1, cp, bp => pagStep w acts pag wc (pagLoop w acts pag wc fuel) cp bp

/-- Fuel that the do-while guard can never exhaust. -/
def fuelFor (mp : Option JSVal) : Nat :=
  match mp with
  | some (.vNum q) => q.ceil.toNat + 12
  | _ => 12

/-- The job result of a completed invocation. -/
structure JobResult where
  success : Bool
  totalPages : Nat
  processingTimeMs : Nat
  results : List PageResult
  summary : Summary

/-- Everything inside the browser-owning try block: page setup, the
pagination loop, and assembly of the job result.  Wall-clock time is not
modelled (`processingTimeMs := 0`). -/
def mainBody (w : World) (d : JobData) : Except String JobResult × List Ev :=
  if !w.newPageOk then (.error "page setup failed", [])
  else
    let acts := actionsOf d.actions
    let lp := pagLoop w acts d.pagination d.waitConditions
      (fuelFor d.pagination.maxPages) 1 0
    (.ok { success := true, totalPages := lp.1.length, processingTimeMs := 0,
           results := lp.1, summary := generateSummary lp.1 }, lp.2)

/-- `puppeteerProcessor`: validation, then scoped browser acquisition with
guaranteed release.  The outer catch only attempts a diagnostic
screenshot and re-raises, so it is the identity on the error; the finally
clause closes the browser whenever one was launched. -/
def puppeteerProcessor (w : World) (d : JobData) :
    Except String JobResult × List Ev :=
  match validate d with
  | some m => (.error m, [])
  | none =>
    if !w.launchOk then (.error "browser launch failed", [])
    else
      let body := mainBody w d
      (body.1, .launch :: (body.2 ++ [.close]))

/-- A minimal job configuration: a valid URL and the given action list. -/
def simpleJob (acts : List Action) : JobData :=
  { url := some (.vStr "https://example.test/"), actions := .arr acts }

theorem runActions_ok (ps : PageState) (now : Nat) :
    ∀ (l : List Action) (i : Nat) (d : ScrapedData),
      (∀ b ∈ l, b.critical = false) →
      ∃ d2, (runActions ps now l i d).1 = .ok d2 ∧
        ∃ extra, d2.errors = d.errors ++ extra := by
  intro l
  induction l with
  | nil => exact fun i d _ => ⟨d, rfl, [], by simp⟩
  | cons a rest ih =>
    intro i d h
    have ha : a.critical = false := h a (by simp)
    have hrest : ∀ b ∈ rest, b.critical = false := fun b hb => h b (by simp [hb])
    unfold runActions
    cases hty : a.type with
    | none => exact ih (i + 1) d hrest
    | some ty =>
      cases hex : executeAction ps now a with
      | ok v =>
        obtain ⟨d2, h1, extra, h2⟩ := ih (i + 1)
          (if jsTruthy v && strTruthy a.name then
            { d with fields := insertField d.fields (a.name.getD "") v }
          else d) hrest
        refine ⟨d2, by simpa using h1, extra, ?_⟩
        split at h2 <;> simpa using h2
      | error m =>
        obtain ⟨d2, h1, extra, h2⟩ := ih (i + 1)
          { d with errors := d.errors ++ [⟨i, ty, a.selector, m⟩] } hrest
        refine ⟨d2, by simp [ha, h1], [⟨i, ty, a.selector, m⟩] ++ extra, ?_⟩
        simpa using h2

theorem runActions_trace (ps : PageState) (now : Nat) :
    ∀ (l : List Action) (i : Nat) (d : ScrapedData),
      (∀ b ∈ l, b.critical = false ∧ b.type.isSome) →
      (runActions ps now l i d).2 = List.range' i l.length := by
  intro l
  induction l with
  | nil => intro i d _; simp [runActions]
  | cons a rest ih =>
    intro i d h
    obtain ⟨ha, hsome⟩ := h a (by simp)
    have hrest : ∀ b ∈ rest, b.critical = false ∧ b.type.isSome :=
      fun b hb => h b (by simp [hb])
    obtain ⟨ty, hty⟩ := Option.isSome_iff_exists.mp hsome
    unfold runActions
    cases hex : executeAction ps now a with
    | ok v => simp [hty, hex, ih _ _ hrest, List.range'_succ]
    | error m => simp [hty, hex, ha, ih _ _ hrest, List.range'_succ]

theorem runActions_critical_cut (ps : PageState) (now : Nat) (a : Action)
    (post : List Action) (ty msg : String)
    (hty : a.type = some ty)
    (hfail : executeAction ps now a = .error msg)
    (hcrit : a.critical = true) :
    ∀ (pre : List Action) (i : Nat) (d : ScrapedData),
      (∀ b ∈ pre, b.critical = false ∧ b.type.isSome) →
      runActions ps now (pre ++ a :: post) i d =
        (.error msg, List.range' i pre.length ++ [i + pre.length]) := by
  intro pre
  induction pre with
  | nil =>
    intro i d _
    simp [runActions, hty, hfail, hcrit]
  | cons b rest ih =>
    intro i d h
    obtain ⟨hb, hbsome⟩ := h b (by simp)
    have hrest : ∀ c ∈ rest, c.critical = false ∧ c.type.isSome :=
      fun c hc => h c (by simp [hc])
    obtain ⟨tyb, htyb⟩ := Option.isSome_iff_exists.mp hbsome
    rw [List.cons_append]
    cases hex : executeAction ps now b with
    | ok v =>
      simp [runActions, htyb, hex, ih (i + 1) _ hrest, List.range'_succ,
        Nat.add_comm, Nat.add_assoc, Nat.add_left_comm]
    | error m =>
      simp [runActions, htyb, hex, hb, ih (i + 1) _ hrest, List.range'_succ,
        Nat.add_comm, Nat.add_assoc, Nat.add_left_comm]

theorem runActions_noncrit_record (ps : PageState) (now : Nat) (a : Action)
    (post : List Action) (ty msg : String)
    (hty : a.type = some ty)
    (hfail : executeAction ps now a = .error msg)
    (hcrit : a.critical = false)
    (hpost : ∀ b ∈ post, b.critical = false ∧ b.type.isSome) :
    ∀ (pre : List Action) (i : Nat) (d : ScrapedData),
      (∀ b ∈ pre, b.critical = false ∧ b.type.isSome) →
      ∃ d2, runActions ps now (pre ++ a :: post) i d =
          (.ok d2, List.range' i (pre.length + 1 + post.length)) ∧
        (⟨i + pre.length, ty, a.selector, msg⟩ : ErrRec) ∈ d2.errors := by
  intro pre
  induction pre with
  | nil =>
    intro i d _
    have hpostcrit : ∀ b ∈ post, b.critical = false := fun b hb => (hpost b hb).1
    obtain ⟨d2, hok, extra, herr⟩ := runActions_ok ps now post (i + 1)
      { d with errors := d.errors ++ [⟨i, ty, a.selector, msg⟩] } hpostcrit
    have htr := runActions_trace ps now post (i + 1)
      { d with errors := d.errors ++ [⟨i, ty, a.selector, msg⟩] } hpost
    refine ⟨d2, ?_, ?_⟩
    · have : runActions ps now post (i + 1)
          { d with errors := d.errors ++ [⟨i, ty, a.selector, msg⟩] } =
          (.ok d2, List.range' (i + 1) post.length) := by
        rw [← hok, ← htr]
      simp [runActions, hty, hfail, hcrit, this, List.range'_succ,
        Nat.add_comm, Nat.add_assoc, Nat.add_left_comm]
    · rw [herr]; simp
  | cons b rest ih =>
    intro i d h
    obtain ⟨hb, hbsome⟩ := h b (by simp)
    have hrest : ∀ c ∈ rest, c.critical = false ∧ c.type.isSome :=
      fun c hc => h c (by simp [hc])
    obtain ⟨tyb, htyb⟩ := Option.isSome_iff_exists.mp hbsome
    rw [List.cons_append,
      show (b :: rest).length + 1 + post.length =
        (rest.length + 1 + post.length) + 1 by
          simp only [List.length_cons]; omega,
      List.range'_succ]
    cases hex : executeAction ps now b with
    | ok v =>
      obtain ⟨d2, hrun, hmem⟩ := ih (i + 1)
        (if jsTruthy v && strTruthy b.name then
          { d with fields := insertField d.fields (b.name.getD "") v }
        else d) hrest
      refine ⟨d2, ?_, ?_⟩
      · simp only [runActions, htyb, hex, hrun]
      · have : i + 1 + rest.length = i + (b :: rest).length := by
          simp [Nat.add_comm, Nat.add_assoc, Nat.add_left_comm]
        rwa [this] at hmem
    | error m =>
      obtain ⟨d2, hrun, hmem⟩ := ih (i + 1)
        { d with errors := d.errors ++ [⟨i, tyb, b.selector, m⟩] } hrest
      refine ⟨d2, ?_, ?_⟩
      · simp only [runActions, htyb, hex, hb, Bool.false_eq_true, if_false,
          hrun]
      · have : i + 1 + rest.length = i + (b :: rest).length := by
          simp [Nat.add_comm, Nat.add_assoc, Nat.add_left_comm]
        rwa [this] at hmem

theorem pagLoop_succ (w : World) (acts : List Action) (pag : Pagination)
    (wc : WaitConditions) (fuel cp bp : Nat) :
    pagLoop w acts pag wc (fuel + 1) cp bp =
      pagStep w acts pag wc (pagLoop w acts pag wc fuel) cp bp := rfl

set_option maxHeartbeats 1600000 in
theorem pagStep_events_shape (w : World) (acts : List Action)
    (pag : Pagination) (wc : WaitConditions)
    (recur : Nat → Nat → List PageResult × List Ev) (cp bp : Nat) (e : Ev)
    (he : e ∈ (pagStep w acts pag wc recur cp bp).2) :
    e = .goto ∨ (∃ i j, e = .dispatch i j) ∨ (∃ i, e = .checkNext i) ∨
      (∃ i, e = .clickNext i) ∨ ∃ cp2 bp2, e ∈ (recur cp2 bp2).2 := by
  unfold pagStep at he
  repeat' split at he
  all_goals
    simp only [List.mem_append, List.mem_cons, List.mem_map,
      List.mem_singleton, List.not_mem_nil, or_false, false_or] at he
  all_goals aesop

theorem pagLoop_events_shape (w : World) (acts : List Action)
    (pag : Pagination) (wc : WaitConditions) :
    ∀ (fuel cp bp : Nat) (e : Ev),
      e ∈ (pagLoop w acts pag wc fuel cp bp).2 →
      e = .goto ∨ (∃ i j, e = .dispatch i j) ∨ (∃ i, e = .checkNext i) ∨
        (∃ i, e = .clickNext i) := by
  intro fuel
  induction fuel with
  | zero => intro cp bp e he; simp [pagLoop] at he
  | succ n ih =>
    intro cp bp e he
    rw [pagLoop] at he
    rcases pagStep_events_shape w acts pag wc _ cp bp e he with
      h | h | h | h | ⟨cp2, bp2, h⟩
    · exact Or.inl h
    · exact Or.inr (Or.inl h)
    · exact Or.inr (Or.inr (Or.inl h))
    · exact Or.inr (Or.inr (Or.inr h))
    · exact ih cp2 bp2 e h

/-- Claim C2: on every exit path of a job invocation (normal completion, a
caught page error, or an exception escaping the whole job) the launched
browser is closed exactly once, and at most one browser session exists
per invocation: the event trace holds at most one launch, and exactly as
many close events as launch events. -/
theorem browser_closed_exactly_once (w : World) (d : JobData) :
    (puppeteerProcessor w d).2.count .launch ≤ 1 ∧
    (puppeteerProcessor w d).2.count .close =
      (puppeteerProcessor w d).2.count .launch := by
  unfold puppeteerProcessor
  cases hv : validate d with
  | some m => simp
  | none =>
    cases hl : w.launchOk with
    | false => simp
    | true =>
      simp only [Bool.not_true, Bool.false_eq_true, if_false]
      have hsh := pagLoop_events_shape w (actionsOf d.actions) d.pagination
        d.waitConditions
      have hnl : Ev.launch ∉ (mainBody w d).2 := by
        unfold mainBody
        cases hn : w.newPageOk with
        | false => simp
        | true =>
          simp only [Bool.not_true, Bool.false_eq_true, if_false]
          intro hmem
          rcases hsh _ _ _ _ hmem with h | ⟨_, _, h⟩ | ⟨_, h⟩ | ⟨_, h⟩ <;> cases h
      have hnc : Ev.close ∉ (mainBody w d).2 := by
        unfold mainBody
        cases hn : w.newPageOk with
        | false => simp
        | true =>
          simp only [Bool.not_true, Bool.false_eq_true, if_false]
          intro hmem
          rcases hsh _ _ _ _ hmem with h | ⟨_, _, h⟩ | ⟨_, h⟩ | ⟨_, h⟩ <;> cases h
      constructor
      · simp [List.count_cons, List.count_append,
          List.count_eq_zero.mpr hnl]
      · simp [List.count_cons, List.count_append,
          List.count_eq_zero.mpr hnl, List.count_eq_zero.mpr hnc]

/-- Claim C1: for every page, a failing action flagged critical halts the
remaining actions of its page, and the propagated failure is caught and
converted into an error PageResult rather than aborting the whole job;
the same failure on a non-critical action is recorded in the page's
error list and every subsequent action of the page is still executed. -/
theorem critical_action_isolation (w : World) (pre post : List Action)
    (a : Action) (ty msg : String)
    (hty : a.type = some ty)
    (hfail : executeAction (w.pages 1) w.now a = .error msg)
    (hpre : ∀ b ∈ pre, b.critical = false ∧ b.type.isSome) :
    (a.critical = true →
      processPage (w.pages 1) w.now (pre ++ a :: post) =
        (.error msg, List.range' 0 pre.length ++ [pre.length]) ∧
      (w.launchOk = true → w.newPageOk = true → w.gotoErr = none →
        (puppeteerProcessor w (simpleJob (pre ++ a :: post))).1 =
          .ok { success := true, totalPages := 1, processingTimeMs := 0,
                results := [errorResult 1 msg w.now],
                summary := generateSummary [errorResult 1 msg w.now] })) ∧
    (a.critical = false →
      (∀ b ∈ post, b.critical = false ∧ b.type.isSome) →
      ∃ d2, processPage (w.pages 1) w.now (pre ++ a :: post) =
          (.ok d2, List.range' 0 (pre.length + 1 + post.length)) ∧
        (⟨pre.length, ty, a.selector, msg⟩ : ErrRec) ∈ d2.errors) := by
  constructor
  · intro hc
    have hrun := runActions_critical_cut (w.pages 1) w.now a post ty msg
      hty hfail hc pre 0 (seedData (w.pages 1)) hpre
    constructor
    · simpa [processPage] using hrun
    · intro hl hn hg
      unfold puppeteerProcessor mainBody
      rw [show validate (simpleJob (pre ++ a :: post)) = none from rfl]
      rw [show fuelFor (simpleJob (pre ++ a :: post)).pagination.maxPages
        = 11 + 1 from rfl]
      simp only [hl, hn, Bool.not_true, Bool.false_eq_true, if_false]
      rw [pagLoop_succ]
      unfold pagStep
      simp [hg, simpleJob, actionsOf, processPage, hrun,
        show strTruthy (none : Option String) = false from rfl]
  · intro hc hpost
    obtain ⟨d2, hrun2, hmem⟩ := runActions_noncrit_record (w.pages 1) w.now
      a post ty msg hty hfail hc hpost pre 0 (seedData (w.pages 1)) hpre
    exact ⟨d2, by simpa [processPage] using hrun2, by simpa using hmem⟩

/-- A driver on which every selector wait times out. -/
def w1 : World :=
  { pages := fun _ =>
      { title := "T1", url := "https://site.test/",
        query := fun _ => [], waitOk := fun _ => false,
        evalScript := fun _ => .ok .vNull } }

/-- A click action, flagged critical, whose selector wait will time out. -/
def aClickCrit : Action :=
  { type := some "click", selector := some "#m", critical := true }

/-- The same click action without the critical flag. -/
def aClickNC : Action :=
  { type := some "click", selector := some "#m", critical := false }

/-- A harmless follow-up action. -/
def aDelay : Action := { type := some "delay" }

theorem critical_action_isolation_witness :
    (processPage (w1.pages 1) w1.now [aClickCrit, aDelay] =
      (.error (timeoutMsg "#m"), [0]) ∧
     (puppeteerProcessor w1 (simpleJob [aClickCrit, aDelay])).1 =
       .ok { success := true, totalPages := 1, processingTimeMs := 0,
             results := [errorResult 1 (timeoutMsg "#m") w1.now],
             summary := generateSummary
               [errorResult 1 (timeoutMsg "#m") w1.now] }) ∧
    (∃ d2, processPage (w1.pages 1) w1.now [aClickNC, aDelay] =
        (.ok d2, [0, 1]) ∧
      (⟨0, "click", some "#m", timeoutMsg "#m"⟩ : ErrRec) ∈ d2.errors) := by
  constructor
  · have h := (critical_action_isolation w1 [] [aDelay] aClickCrit "click"
      (timeoutMsg "#m") rfl rfl (by simp)).1 rfl
    exact ⟨by simpa using h.1, h.2 rfl rfl rfl⟩
  · obtain ⟨d2, h1, h2⟩ := (critical_action_isolation w1 [] [aDelay]
      aClickNC "click" (timeoutMsg "#m") rfl rfl (by simp)).2 rfl
      (by intro b hb; simp at hb; subst hb; exact ⟨rfl, rfl⟩)
    exact ⟨d2, by simpa using h1, by simpa using h2⟩

/-- Claim C9 (amended): for an action that executes without failure and
carries a nonempty name, the produced value is stored under that name in
the page's field mapping exactly when the value is truthy; a falsy
produced value (null, 0, false or the empty string) is not stored. -/
theorem truthy_result_stored_under_name (ps : PageState) (now : Nat)
    (a : Action) (ty : String) (v : JSVal) (nm : String)
    (hty : a.type = some ty)
    (hok : executeAction ps now a = .ok v)
    (hnm : a.name = some nm) (hne : nm ≠ "") :
    (processPage ps now [a]).1 =
      .ok { pageTitle := ps.title, currentUrl := ps.url,
            fields := if jsTruthy v then [(nm, v)] else [],
            errors := [] } := by
  have h1 : strTruthy (some nm) = true := by simp [strTruthy, hne]
  cases hjv : jsTruthy v with
  | true =>
    simp [processPage, runActions, seedData, hty, hok, hjv, h1, hnm,
      insertField]
  | false => simp [processPage, runActions, seedData, hty, hok, hjv]

/-- A page whose script evaluation produces the number zero. -/
def evalZeroPage : PageState :=
  { title := "T", url := "https://site.test/", query := fun _ => [],
    waitOk := fun _ => true, evalScript := fun _ => .ok (.vNum 0) }

/-- A page whose script evaluation produces a nonempty string. -/
def evalStrPage : PageState :=
  { title := "T", url := "https://site.test/", query := fun _ => [],
    waitOk := fun _ => true, evalScript := fun _ => .ok (.vStr "v") }

/-- A named evaluate action whose script body returns 0 on `evalZeroPage`. -/
def aEvalZero : Action :=
  { type := some "evaluate", script := some "return 0", name := some "n" }

/-- Counterexample to claim C9 as stated: the evaluate action executes
without failure and carries the name n, and the value it produced is 0,
yet nothing is stored in the page's field mapping (the source stores a
result only when it is truthy). -/
theorem falsy_result_not_stored :
    executeAction evalZeroPage 0 aEvalZero = .ok (.vNum 0) ∧
    aEvalZero.name = some "n" ∧
    (processPage evalZeroPage 0 [aEvalZero]).1 =
      .ok { pageTitle := "T", currentUrl := "https://site.test/",
            fields := [], errors := [] } := ⟨rfl, rfl, rfl⟩

theorem truthy_result_stored_under_name_witness :
    (processPage evalStrPage 0 [aEvalZero]).1 =
      .ok { pageTitle := "T", currentUrl := "https://site.test/",
            fields := [("n", .vStr "v")], errors := [] } ∧
    (processPage evalZeroPage 0 [aEvalZero]).1 =
      .ok { pageTitle := "T", currentUrl := "https://site.test/",
            fields := [], errors := [] } := by
  constructor
  · have h := truthy_result_stored_under_name evalStrPage 0 aEvalZero
      "evaluate" (.vStr "v") "n" rfl rfl rfl (by decide)
    simpa [show jsTruthy (JSVal.vStr "v") = true from rfl] using h
  · have h := truthy_result_stored_under_name evalZeroPage 0 aEvalZero
      "evaluate" (.vNum 0) "n" rfl rfl rfl (by decide)
    simpa [show jsTruthy (JSVal.vNum 0) = false from rfl] using h

/-- A blank page driver used by several concrete checks. -/
def blankPage : PageState :=
  { title := "T", url := "https://site.test/", query := fun _ => [],
    waitOk := fun _ => true, evalScript := fun _ => .ok .vNull }

/-- An action with an unrecognised string kind. -/
def aFrob : Action := { type := some "frobnicate" }

/-- Counterexample to claim C5 as stated: an action whose kind is the
unrecognised string frobnicate is not skipped without record; the
interpreter throws Unknown action type and the page loop records it in
the error list. -/
theorem unknown_string_kind_records_error :
    recognizedKind "frobnicate" = false ∧
    (processPage blankPage 0 [aFrob]).1 =
      .ok { pageTitle := "T", currentUrl := "https://site.test/",
            fields := [],
            errors := [⟨0, "frobnicate", none,
              "Unknown action type: frobnicate"⟩] } ∧
    ([(⟨0, "frobnicate", none,
        "Unknown action type: frobnicate"⟩ : ErrRec)] : List ErrRec) ≠ [] :=
  ⟨rfl, rfl, by simp⟩

/-- Claim C5 (amended): an action whose kind is not a string is skipped
with no dispatch and no error entry; an action whose kind is an
unrecognised string (conditions permitting execution) fails with an
Unknown-action-type error, which is then recorded like any failure. -/
theorem nonstring_kind_skipped (ps : PageState) (now : Nat) :
    (∀ (a : Action) (rest : List Action) (i : Nat) (d : ScrapedData),
      a.type = none →
      runActions ps now (a :: rest) i d = runActions ps now rest (i + 1) d) ∧
    (∀ (a : Action) (ty : String), a.type = some ty →
      recognizedKind ty = false → a.condition = {} →
      executeAction ps now a = .error ("Unknown action type: " ++ ty)) := by
  constructor
  · intro a rest i d hty
    simp [runActions, hty]
  · intro a ty hty hrec hcond
    have hskip : condSkip ps a = false := by
      simp [condSkip, hcond, strTruthy]
    simp only [recognizedKind, Bool.or_eq_false_iff, decide_eq_false_iff_not]
      at hrec
    obtain ⟨⟨⟨⟨⟨⟨⟨h1, h2⟩, h3⟩, h4⟩, h5⟩, h6⟩, h7⟩, h8⟩ := hrec
    simp [executeAction, hskip, dispatchAction, hty, h1, h2, h3, h4, h5,
      h6, h7, h8]

theorem nonstring_kind_skipped_witness :
    runActions blankPage 0 [({ type := none } : Action)] 0
        (seedData blankPage) =
      runActions blankPage 0 [] 1 (seedData blankPage) ∧
    executeAction blankPage 0 aFrob =
      .error "Unknown action type: frobnicate" := by
  constructor
  · exact (nonstring_kind_skipped blankPage 0).1 { type := none } [] 0 _ rfl
  · exact (nonstring_kind_skipped blankPage 0).2 aFrob "frobnicate" rfl
      (by decide) rfl

/-- A page where every selector wait times out and nothing matches. -/
def pageNoX : PageState :=
  { title := "T", url := "https://site.test/", query := fun _ => [],
    waitOk := fun _ => false, evalScript := fun _ => .ok .vNull }

/-- An element with text that lacks the tested substring. -/
def xElem : Elem :=
  { textContent := "hello world", innerHTML := "hello world",
    getAttr := fun _ => none, disabled := false, classList := [],
    styleDisplay := "", styleVisibility := "" }

/-- A page on which the selector .x matches `xElem`. -/
def pageWithX : PageState :=
  { title := "T", url := "https://site.test/",
    query := fun s => if s = ".x" then [xElem] else [],
    waitOk := fun _ => true, evalScript := fun _ => .ok .vNull }

/-- An extract action guarded by a text-must-contain condition. -/
def textCondAction : Action :=
  { type := some "extract", selector := some ".x",
    condition := { ifTextContains := some "needle" } }

/-- Claim C10: a text-must-contain condition together with a selector does
not cause a skip when no element matches the selector at evaluation time;
the action is dispatched and executed anyway.  Only a present matching
element whose text lacks the substring causes the skip. -/
theorem text_condition_absent_element_no_skip (ps : PageState) (now : Nat)
    (a : Action) (sel sub : String)
    (hsel : a.selector = some sel) (hselne : sel ≠ "")
    (hsub : a.condition.ifTextContains = some sub) (hsubne : sub ≠ "")
    (hex : a.condition.ifExists = false)
    (hnex : a.condition.ifNotExists = false) :
    (ps.query sel = [] → executeAction ps now a = dispatchAction ps now a) ∧
    (∀ e rest, ps.query sel = e :: rest →
      jsIncludes e.textContent sub = false →
      executeAction ps now a = .ok .vNull) := by
  constructor
  · intro hq
    have hskip : condSkip ps a = false := by
      simp [condSkip, hex, hnex, hsel, hsub, hq, strTruthy, hselne]
    simp [executeAction, hskip]
  · intro e rest hq hinc
    have hskip : condSkip ps a = true := by
      simp [condSkip, hex, hnex, hsel, hsub, hq, strTruthy, hselne, hsubne]
      by_cases htc : e.textContent = "" <;> simp [htc, hinc]
    simp [executeAction, hskip]

theorem text_condition_absent_element_no_skip_witness :
    (executeAction pageNoX 0 textCondAction =
      dispatchAction pageNoX 0 textCondAction ∧
     dispatchAction pageNoX 0 textCondAction =
      .error (timeoutMsg ".x")) ∧
    executeAction pageWithX 0 textCondAction = .ok .vNull := by
  refine ⟨⟨?_, rfl⟩, ?_⟩
  · exact (text_condition_absent_element_no_skip pageNoX 0 textCondAction
      ".x" "needle" rfl (by decide) rfl (by decide) rfl rfl).1 rfl
  · exact (text_condition_absent_element_no_skip pageWithX 0 textCondAction
      ".x" "needle" rfl (by decide) rfl (by decide) rfl rfl).2 xElem [] rfl
      (by decide)

/-- A next element that is enabled in every respect except an
aria-disabled attribute set to true. -/
def ariaElem : Elem :=
  { textContent := "Next", innerHTML := "Next",
    getAttr := fun k => if k = "aria-disabled" then some "true" else none,
    disabled := false, classList := ["pager"], styleDisplay := "inline",
    styleVisibility := "visible" }

/-- A page whose .next selector matches `ariaElem`. -/
def ariaPage : PageState :=
  { title := "P1", url := "https://site.test/1",
    query := fun s => if s = ".next" then [ariaElem] else [],
    waitOk := fun _ => true, evalScript := fun _ => .ok .vNull }

/-- A site consisting of `ariaPage` everywhere. -/
def ariaWorld : World := { pages := fun _ => ariaPage }

/-- A paginated job against `ariaWorld` with no action list. -/
def ariaJob : JobData :=
  { url := some (.vStr "https://site.test/1"),
    pagination := { nextButtonSelector := some ".next" } }

/-- Claim C6: during next-page checking, a present next element in a
disabled state — a disabled attribute, a disabled class, an
aria-disabled true attribute, or inline hidden/invisible styling — stops
the pagination loop without recording an error; in particular
aria-disabled true alone stops pagination even though the element is
present and otherwise clickable. -/
theorem disabled_next_element_stops_pagination (ps : PageState)
    (sel : String) (e : Elem) (rest : List Elem)
    (hq : ps.query sel = e :: rest)
    (hdis : e.disabled = true ∨ "disabled" ∈ e.classList ∨
      e.getAttr "aria-disabled" = some "true" ∨ e.styleDisplay = "none" ∨
      e.styleVisibility = "hidden") :
    checkAndNavigateToNextPage ps sel = false ∧
    (isDisabledElem ariaElem = true ∧
     ariaElem.disabled = false ∧
     (puppeteerProcessor ariaWorld ariaJob).1 =
       .ok { success := true, totalPages := 1, processingTimeMs := 0,
             results := [successResult 1 ariaPage (seedData ariaPage) 0],
             summary := generateSummary
               [successResult 1 ariaPage (seedData ariaPage) 0] } ∧
     (puppeteerProcessor ariaWorld ariaJob).2 =
       [.launch, .goto, .checkNext 1, .close]) := by
  have hde : isDisabledElem e = true := by
    rcases hdis with h | h | h | h | h
    · simp [isDisabledElem, h]
    · have hany : e.classList.any (fun c => decide (c = "disabled")) = true :=
        List.any_eq_true.mpr ⟨"disabled", h, by simp⟩
      simp [isDisabledElem, hany]
    · simp [isDisabledElem, h]
    · simp [isDisabledElem, h]
    · simp [isDisabledElem, h]
  refine ⟨?_, rfl, rfl, rfl, rfl⟩
  simp [checkAndNavigateToNextPage, hq, hde]

theorem disabled_next_element_stops_pagination_witness :
    checkAndNavigateToNextPage ariaPage ".next" = false ∧
    Ev.clickNext 1 ∉ (puppeteerProcessor ariaWorld ariaJob).2 := by
  have h := disabled_next_element_stops_pagination ariaPage ".next"
    ariaElem [] rfl (Or.inr (Or.inr (Or.inl rfl)))
  refine ⟨h.1, ?_⟩
  rw [h.2.2.2.2]
  decide

/-- An element whose text is a formatted dollar price. -/
def dollarElem : Elem :=
  { textContent := "$1,234.56", innerHTML := "$1,234.56",
    getAttr := fun _ => none, disabled := false, classList := [],
    styleDisplay := "", styleVisibility := "" }

/-- A page whose .price selector matches `dollarElem`. -/
def pricePage : PageState :=
  { title := "T", url := "https://site.test/",
    query := fun s => if s = ".price" then [dollarElem] else [],
    waitOk := fun _ => true, evalScript := fun _ => .ok .vNull }

/-- An extract action with numeric coercion requested. -/
def priceAction : Action :=
  { type := some "extract", selector := some ".price", parseNumber := true }

/-- Claim C8: for an extract action with numeric coercion requested,
non-numeric characters are stripped from the element text and a
floating-point number is parsed, falling back to the raw (trimmed) text
when parsing fails; in particular the text 1,234.56 preceded by a dollar
sign yields the number 1234.56 (see the witness). -/
theorem extract_numeric_coercion (ps : PageState) (now : Nat) (a : Action)
    (sel : String) (e : Elem)
    (hty : a.type = some "extract") (hsel : a.selector = some sel)
    (hselne : sel ≠ "") (hpn : a.parseNumber = true)
    (hattr : a.attr = none) (hhtml : a.innerHTML = false)
    (hcond : a.condition = {})
    (hwait : ps.waitOk sel = true) (hq : ps.query sel = [e])
    (htrim : jsTrim e.textContent ≠ "") :
    (∀ q, parseFloatQ (stripNonNumeric (jsTrim e.textContent)) = some q →
      executeAction ps now a = .ok (.vList [.vNum q])) ∧
    (parseFloatQ (stripNonNumeric (jsTrim e.textContent)) = none →
      executeAction ps now a = .ok (.vList [.vStr (jsTrim e.textContent)])) := by
  have hskip : condSkip ps a = false := by
    simp [condSkip, hcond, strTruthy]
  have hv : strTruthy (some sel) = true := by simp [strTruthy, hselne]
  constructor
  · intro q hparse
    simp [executeAction, hskip, dispatchAction, hsel, hty, hv, hwait, hq,
      extractValue, hattr, hhtml, hpn, strTruthy, jsTruthy, htrim, hparse,
      JSVal.isNull, hselne]
  · intro hparse
    simp [executeAction, hskip, dispatchAction, hsel, hty, hv, hwait, hq,
      extractValue, hattr, hhtml, hpn, strTruthy, jsTruthy, htrim, hparse,
      JSVal.isNull, hselne]

theorem extract_numeric_coercion_witness :
    executeAction pricePage 0 priceAction = .ok (.vList [.vNum 1234.56]) := by
  have hp : parseFloatParts "1234.56" =
      some ⟨false, ['1', '2', '3', '4'], ['5', '6'], false, []⟩ := by decide
  have hval : FloatParts.val
      ⟨false, ['1', '2', '3', '4'], ['5', '6'], false, []⟩ = 1234.56 := by
    have h1 : digitsVal ['1', '2', '3', '4'] = 1234 := by decide
    have h2 : digitsVal ['5', '6'] = 56 := by decide
    have h3 : digitsVal ([] : List Char) = 0 := by decide
    simp [FloatParts.val, h1, h2, h3]
    norm_num
  have hparse : parseFloatQ (stripNonNumeric (jsTrim "$1,234.56")) =
      some 1234.56 := by
    rw [show stripNonNumeric (jsTrim "$1,234.56") = "1234.56" from by decide]
    simp [parseFloatQ, hp, hval]
  exact (extract_numeric_coercion pricePage 0 priceAction ".price"
    dollarElem rfl rfl (by decide) rfl rfl rfl rfl rfl rfl
    (by decide)).1 1234.56 hparse

/-- A driver world of blank pages. -/
def blankWorld : World := { pages := fun _ => blankPage }

/-- Claim-side predicate: the URL is missing, non-string, or lacks an
http/https scheme. -/
def urlViolation (u : Option JSVal) : Prop :=
  u = none ∨ (∀ s, u ≠ some (.vStr s)) ∨
    (∃ s, u = some (.vStr s) ∧ startsHttp s = false)

/-- Claim-side predicate: the actions value is present but not a
sequence. -/
def actionsViolation : ActionsField → Prop
  | .nonArray _ => True
  | _ => False

/-- Claim-side predicate (amended): `pagination.maxPages` is present and
truthy but not a positive number. -/
def maxPagesViolation (mp : Option JSVal) : Prop :=
  ∃ v, mp = some v ∧ jsTruthy v = true ∧ ∀ q : ℚ, 0 < q → v ≠ .vNum q

theorem validate_none_shape (d : JobData) (hnone : validate d = none) :
    (∃ s, d.url = some (.vStr s) ∧ startsHttp s = true) ∧
    (∀ v, d.actions ≠ .nonArray v) ∧
    (∀ v, d.pagination.maxPages = some v → jsTruthy v = true →
      ∃ q, v = .vNum q ∧ 1 ≤ q) := by
  unfold validate at hnone
  split at hnone
  · exact Option.noConfusion hnone
  next hturl =>
    split at hnone
    case h_2 hnotstr => exact Option.noConfusion hnone
    case h_1 s heq =>
      split at hnone
      · exact Option.noConfusion hnone
      next hhttp =>
        have hhttp2 : startsHttp s = true := by
          revert hhttp; cases startsHttp s <;> simp
        refine ⟨⟨s, heq, hhttp2⟩, ?_⟩
        split at hnone
        · exact Option.noConfusion hnone
        next hna =>
          refine ⟨?_, ?_⟩
          · intro v hv
            exact hna v hv
          · split at hnone
            case h_2 hmpn =>
              intro v hv
              rw [hmpn] at hv
              exact Option.noConfusion hv
            case h_1 mp hmp =>
              split at hnone
              · exact Option.noConfusion hnone
              next hcond =>
                intro v hv htv
                rw [hmp] at hv
                injection hv with hv
                subst hv
                rw [htv] at hcond
                simp only [Bool.true_and, Bool.not_eq_true] at hcond
                cases mp with
                | vNum q =>
                  refine ⟨q, rfl, ?_⟩
                  revert hcond
                  simp
                | vNull => simp at hcond
                | vBool b => simp at hcond
                | vStr t => simp at hcond
                | vList xs => simp at hcond

/-- Claim C4 (amended): a JobConfig whose URL is missing, non-string or
without an http/https scheme, whose actions value is not a sequence, or
whose `pagination.maxPages` is present and truthy but not a positive
number, fails validation before any browser resource is acquired: the
call returns an error and the event trace is empty (no launch). -/
theorem invalid_config_rejected_before_launch (w : World) (d : JobData)
    (hbad : urlViolation d.url ∨ actionsViolation d.actions ∨
      maxPagesViolation d.pagination.maxPages) :
    (∃ m, (puppeteerProcessor w d).1 = .error m) ∧
    (puppeteerProcessor w d).2 = [] := by
  have hv : ∃ m, validate d = some m := by
    cases hvn : validate d with
    | some m => exact ⟨m, rfl⟩
    | none =>
      exfalso
      obtain ⟨⟨s, hs, hhttp⟩, hact, hmp⟩ := validate_none_shape d hvn
      rcases hbad with h | h | h
      · rcases h with h | h | ⟨t, ht, hh⟩
        · rw [h] at hs; exact Option.noConfusion hs
        · exact h s hs
        · rw [hs] at ht
          injection ht with ht
          injection ht with ht
          subst ht
          rw [hhttp] at hh
          exact Bool.noConfusion hh
      · rcases ha : d.actions with _ | as | v
        · rw [ha] at h; simp [actionsViolation] at h
        · rw [ha] at h; simp [actionsViolation] at h
        · exact hact v ha
      · obtain ⟨v, hv2, htv, hnp⟩ := h
        obtain ⟨q, hq, h1q⟩ := hmp v hv2 htv
        exact hnp q (lt_of_lt_of_le zero_lt_one h1q) hq
  obtain ⟨m, hm⟩ := hv
  unfold puppeteerProcessor
  rw [hm]
  exact ⟨⟨m, rfl⟩, rfl⟩

/-- A job whose page ceiling is the falsy number zero. -/
def mpZeroJob : JobData :=
  { url := some (.vStr "https://site.test/"),
    pagination := { maxPages := some (.vNum 0) } }

/-- Counterexample to claim C4 as stated: `pagination.maxPages = 0` is
present and not a positive number, yet validation passes (zero is falsy,
so the check is skipped), the browser is launched, and the job
completes. -/
theorem maxpages_zero_passes_validation :
    mpZeroJob.pagination.maxPages = some (.vNum 0) ∧
    ¬ (0 : ℚ) < 0 ∧
    validate mpZeroJob = none ∧
    (puppeteerProcessor blankWorld mpZeroJob).2 =
      [.launch, .goto, .close] ∧
    Ev.launch ∈ (puppeteerProcessor blankWorld mpZeroJob).2 := by
  refine ⟨rfl, by norm_num, rfl, rfl, ?_⟩
  rw [show (puppeteerProcessor blankWorld mpZeroJob).2 =
    [.launch, .goto, .close] from rfl]
  decide

theorem invalid_config_rejected_before_launch_witness :
    (∃ m, (puppeteerProcessor blankWorld
      { url := some (.vStr "ftp://site.test/") }).1 = .error m) ∧
    (puppeteerProcessor blankWorld
      { url := some (.vStr "ftp://site.test/") }).2 = [] := by
  apply invalid_config_rejected_before_launch
  exact Or.inl (Or.inr (Or.inr ⟨"ftp://site.test/", rfl, by decide⟩))

/-- Spec-side reading of the summary: the successful pages are those with
no page-level error. -/
def specSuccessful (results : List PageResult) : List PageResult :=
  results.filter (fun r => r.error.isNone)

/-- Spec-side reading: the field names of the first successful page minus
the structural fields. -/
def specDataTypes (results : List PageResult) : Option (List String) :=
  (results.find? (fun r => r.error.isNone)).map
    (fun r => (r.fields.map Prod.fst).filter (fun k => !isStructuralKey k))

/-- Spec-side reading: the total extracted item count is the sum of the
lengths of the sequence-valued summary fields across all successful
pages. -/
def specTotalItems (results : List PageResult) : Option Nat :=
  (specDataTypes results).map (fun dts =>
    ((specSuccessful results).map (fun r =>
      (dts.map (fun k => arrLen (r.valueAt k))).sum)).sum)

theorem filter_length_split {α : Type} (l : List α) (p q : α → Bool)
    (hpq : ∀ a ∈ l, q a = !p a) :
    (l.filter p).length + (l.filter q).length = l.length := by
  induction l with
  | nil => simp
  | cons a t ih =>
    have ht : ∀ b ∈ t, q b = !p b := fun b hb => hpq b (by simp [hb])
    have hq := hpq a (by simp)
    have hsum := ih ht
    cases hp : p a <;> rw [hp] at hq <;>
      simp [List.filter_cons, hp, hq] <;> omega

theorem foldl_add_map {α : Type} (l : List α) (f : α → Nat) (n : Nat) :
    l.foldl (fun s a => s + f a) n = n + (l.map f).sum := by
  induction l generalizing n with
  | nil => simp
  | cons a t ih => simp [ih]; omega

theorem find?_eq_filter_head {α : Type} (l : List α) (p : α → Bool) :
    l.find? p = (l.filter p).head? := by
  induction l with
  | nil => rfl
  | cons a t ih =>
    cases hp : p a with
    | true =>
      rw [List.find?_cons_of_pos t hp, List.filter_cons_of_pos hp]
      rfl
    | false =>
      rw [List.find?_cons_of_neg t (by rw [hp]; exact Bool.false_ne_true),
        List.filter_cons_of_neg (by rw [hp]; exact Bool.false_ne_true), ih]

theorem jsKeys_filter_nonstructural (r : PageResult) (he : r.error = none) :
    r.jsKeys.filter (fun k => !isStructuralKey k) =
      (r.fields.map Prod.fst).filter (fun k => !isStructuralKey k) := by
  simp only [PageResult.jsKeys, he, List.filter_append]
  rw [show List.filter (fun k => !isStructuralKey k)
    ["page", "url", "timestamp", "pageTitle", "currentUrl"] = [] from
    by decide]
  cases hre : r.errors.isEmpty with
  | true => simp
  | false =>
    simp [show List.filter (fun k => !isStructuralKey k) ["errors"] = []
      from by decide]

/-- A generic enabled next-page element. -/
def nextElem : Elem :=
  { textContent := "Next", innerHTML := "Next", getAttr := fun _ => none,
    disabled := false, classList := [], styleDisplay := "",
    styleVisibility := "" }

/-- A fixture item element with the given text. -/
def itemElem (t : String) : Elem :=
  { textContent := t, innerHTML := t, getAttr := fun _ => none,
    disabled := false, classList := [], styleDisplay := "",
    styleVisibility := "" }

/-- A fixture page with three .item elements and, when `hasNext`, an
enabled .next element. -/
def fixturePage (hasNext : Bool) : PageState :=
  { title := "F", url := "https://fixture.test/",
    query := fun s =>
      if s = ".item" then [itemElem "A", itemElem "B", itemElem "C"]
      else if s = ".next" && hasNext then [nextElem] else [],
    waitOk := fun _ => true, evalScript := fun _ => .ok .vNull }

/-- The two-page fixture site. -/
def fixtureWorld : World :=
  { pages := fun i => if i = 1 then fixturePage true
      else if i = 2 then fixturePage false else blankPage }

/-- The fixture extract action. -/
def fixtureExtract : Action :=
  { type := some "extract", selector := some ".item",
    name := some "items" }

/-- The fixture job: one extract action and a page ceiling of two. -/
def fixtureJob : JobData :=
  { url := some (.vStr "https://fixture.test/"),
    actions := .arr [fixtureExtract],
    pagination :=
      { nextButtonSelector := some ".next",
        maxPages := some (.vNum 2) } }

/-- Claim C7: over the final PageResult sequence the summary reports the
total page count, the successful-page count (pages with no page-level
error), the error-page count (its complement), the total recorded action
errors summed over all pages, the non-structural field names of the
first successful page, and the total extracted item count (the sum of
the lengths of the sequence-valued summary fields across all successful
pages); the two-page, three-items-per-page fixture scenario yields
totalItemsExtracted = 6. -/
theorem summary_component_formulas :
    (∀ results : List PageResult, (∀ r ∈ results, r.error ≠ some "") →
      (generateSummary results).totalPages = results.length ∧
      (generateSummary results).successfulPages =
        (specSuccessful results).length ∧
      (generateSummary results).errorPages =
        results.length - (specSuccessful results).length ∧
      (generateSummary results).totalErrors =
        (results.map (fun r => r.errors.length)).sum ∧
      (generateSummary results).dataTypes = specDataTypes results ∧
      (generateSummary results).totalItemsExtracted =
        specTotalItems results) ∧
    ((puppeteerProcessor fixtureWorld fixtureJob).1.map
      (fun jr => (jr.summary.totalItemsExtracted, jr.results.length)) =
      .ok (some 6, 2)) := by
  constructor
  · intro results herr
    have hpt : ∀ r ∈ results, (!strTruthy r.error) = r.error.isNone := by
      intro r hr
      cases he : r.error with
      | none => simp [strTruthy]
      | some m =>
        have hm : ¬ m = "" := fun h => herr r hr (by rw [he, h])
        simp [strTruthy, hm]
    have hfilter : results.filter (fun r => !strTruthy r.error) =
        specSuccessful results := List.filter_congr hpt
    have hsplit := filter_length_split results
      (fun r => strTruthy r.error) (fun r => !strTruthy r.error)
      (fun a _ => rfl)
    rw [hfilter] at hsplit
    have herrp : (results.filter (fun r => strTruthy r.error)).length =
        results.length - (specSuccessful results).length := by omega
    have hfind : results.find? (fun r => r.error.isNone) =
        (specSuccessful results).head? := by
      rw [find?_eq_filter_head]
      unfold specSuccessful
      rfl
    cases hsucc : specSuccessful results with
    | nil =>
      refine ⟨?_, ?_, ?_, ?_, ?_, ?_⟩
      · simp [generateSummary, hfilter, hsucc]
      · simp [generateSummary, hfilter, hsucc]
      · simp [generateSummary, hfilter, hsucc, herrp]
      · simp [generateSummary, hfilter, hsucc, foldl_add_map]
      · simp [generateSummary, hfilter, hsucc, specDataTypes, hfind]
      · simp [generateSummary, hfilter, hsucc, specTotalItems,
          specDataTypes, hfind]
    | cons first rest =>
      have hfmem : first ∈ specSuccessful results := by
        rw [hsucc]; exact List.mem_cons_self first rest
      have hfe : first.error = none := by
        have h2 := (List.mem_filter.mp hfmem).2
        revert h2
        cases first.error <;> simp
      refine ⟨?_, ?_, ?_, ?_, ?_, ?_⟩
      · simp [generateSummary, hfilter, hsucc]
      · simp [generateSummary, hfilter, hsucc]
      · simp [generateSummary, hfilter, hsucc, herrp]
      · simp [generateSummary, hfilter, hsucc, foldl_add_map]
      · simp [generateSummary, hfilter, hsucc, specDataTypes, hfind,
          jsKeys_filter_nonstructural first hfe]
      · simp [generateSummary, hfilter, hsucc, specTotalItems,
          specDataTypes, hfind, jsKeys_filter_nonstructural first hfe,
          foldl_add_map]
  · rfl

/-- A small mixed result list used to instantiate the summary claim. -/
def wres : List PageResult :=
  [successResult 1 blankPage
    { pageTitle := "T", currentUrl := "https://site.test/",
      fields := [("xs", .vList [.vNum 1, .vNull])], errors := [] } 0,
   errorResult 2 "boom" 0]

theorem summary_component_formulas_witness :
    ((generateSummary wres).totalPages = wres.length ∧
     (generateSummary wres).successfulPages = (specSuccessful wres).length ∧
     (generateSummary wres).errorPages =
       wres.length - (specSuccessful wres).length ∧
     (generateSummary wres).totalErrors =
       (wres.map (fun r => r.errors.length)).sum ∧
     (generateSummary wres).dataTypes = specDataTypes wres ∧
     (generateSummary wres).totalItemsExtracted = specTotalItems wres) ∧
    (specSuccessful wres).length = 1 ∧
    (generateSummary wres).totalItemsExtracted = some 2 := by
  refine ⟨summary_component_formulas.1 wres ?_, rfl, rfl⟩
  intro r hr
  simp only [wres, List.mem_cons, List.not_mem_nil, or_false] at hr
  rcases hr with h | h <;> subst h <;> simp [successResult, errorResult]

/-- Page `i` of a fixture site of `N` linked pages: pages 1 to N-1 carry
an enabled next element, page N does not; every wait resolves. -/
def linkedPage (N i : Nat) : PageState :=
  { title := "L", url := "https://linked.test/",
    query := fun s =>
      if s = ".next" ∧ 1 ≤ i ∧ i < N then [nextElem] else [],
    waitOk := fun _ => true, evalScript := fun _ => .ok .vNull }

/-- The linked fixture site. -/
def linkedWorld (N : Nat) : World := { pages := linkedPage N }

/-- Pagination against the linked fixture's next element. -/
def linkedPag (mp : Option JSVal) : Pagination :=
  { nextButtonSelector := some ".next", maxPages := mp }

/-- A job against the linked fixture. -/
def linkedJob (acts : List Action) (mp : Option JSVal) : JobData :=
  { url := some (.vStr "https://linked.test/"),
    actions := .arr acts,
    pagination := linkedPag mp }

theorem pagStep_first_success (w : World) (acts : List Action)
    (pag : Pagination) (recur : Nat → Nat → List PageResult × List Ev)
    (bp : Nat) (d : ScrapedData) (tr : List Nat)
    (hg : w.gotoErr = none)
    (hproc : processPage (w.pages 1) w.now acts = (.ok d, tr)) :
    pagStep w acts pag {} recur 1 bp =
      (if strTruthy pag.nextButtonSelector && jsLtMax 1 pag.maxPages then
        if checkAndNavigateToNextPage (w.pages 1)
            (pag.nextButtonSelector.getD "") then
          if strTruthy pag.nextButtonSelector && jsLeCeil 2 pag.maxPages then
            (successResult 1 (w.pages 1) d w.now :: (recur 2 2).1,
             (Ev.goto :: tr.map (Ev.dispatch 1)) ++
               [Ev.checkNext 1, Ev.clickNext 1] ++ (recur 2 2).2)
          else ([successResult 1 (w.pages 1) d w.now],
             (Ev.goto :: tr.map (Ev.dispatch 1)) ++
               [Ev.checkNext 1, Ev.clickNext 1])
        else ([successResult 1 (w.pages 1) d w.now],
             (Ev.goto :: tr.map (Ev.dispatch 1)) ++ [Ev.checkNext 1])
      else ([successResult 1 (w.pages 1) d w.now],
             Ev.goto :: tr.map (Ev.dispatch 1))) := by
  simp [pagStep, hg, hproc,
    show strTruthy (none : Option String) = false from rfl]

theorem pagStep_later_success (w : World) (acts : List Action)
    (pag : Pagination) (recur : Nat → Nat → List PageResult × List Ev)
    (cp bp : Nat) (d : ScrapedData) (tr : List Nat)
    (hcp : ¬ cp = 1)
    (hproc : processPage (w.pages bp) w.now acts = (.ok d, tr)) :
    pagStep w acts pag {} recur cp bp =
      (if strTruthy pag.nextButtonSelector && jsLtMax cp pag.maxPages then
        if checkAndNavigateToNextPage (w.pages bp)
            (pag.nextButtonSelector.getD "") then
          if strTruthy pag.nextButtonSelector &&
              jsLeCeil (cp + 1) pag.maxPages then
            (successResult cp (w.pages bp) d w.now :: (recur (cp + 1) (bp + 1)).1,
             tr.map (Ev.dispatch cp) ++
               [Ev.checkNext cp, Ev.clickNext cp] ++ (recur (cp + 1) (bp + 1)).2)
          else ([successResult cp (w.pages bp) d w.now],
             tr.map (Ev.dispatch cp) ++ [Ev.checkNext cp, Ev.clickNext cp])
        else ([successResult cp (w.pages bp) d w.now],
             tr.map (Ev.dispatch cp) ++ [Ev.checkNext cp])
      else ([successResult cp (w.pages bp) d w.now],
             tr.map (Ev.dispatch cp))) := by
  simp [pagStep, hcp, hproc]

theorem linked_query_next (N i : Nat) (h1 : 1 ≤ i) (h2 : i < N) :
    (linkedPage N i).query ".next" = [nextElem] := by
  simp [linkedPage, h1, h2]

theorem linked_check_true (N i : Nat) (h1 : 1 ≤ i) (h2 : i < N) :
    checkAndNavigateToNextPage (linkedPage N i) ".next" = true := by
  rw [checkAndNavigateToNextPage, linked_query_next N i h1 h2]
  simp [show isDisabledElem nextElem = false from by decide]

theorem linked_processPage_ok (N i : Nat) (acts : List Action)
    (hcrit : ∀ b ∈ acts, b.critical = false) :
    ∃ d, processPage (linkedPage N i) 0 acts =
      (.ok d, (processPage (linkedPage N i) 0 acts).2) := by
  obtain ⟨d, hd, -⟩ := runActions_ok (linkedPage N i) 0 acts 0
    (seedData (linkedPage N i)) hcrit
  refine ⟨d, ?_⟩
  have hpp : processPage (linkedPage N i) 0 acts =
      runActions (linkedPage N i) 0 acts 0 (seedData (linkedPage N i)) := rfl
  rw [hpp, ← hd]

theorem jsLtMax_nat (cp M : Nat) (hM : 1 ≤ M) :
    jsLtMax cp (some (.vNum (M : ℚ))) = decide (cp < M) := by
  have hMq : ((M : ℕ) : ℚ) ≠ 0 := by
    exact_mod_cast Nat.one_le_iff_ne_zero.mp hM
  rw [jsLtMax, if_neg hMq]
  exact decide_eq_decide.mpr Nat.cast_lt

theorem jsLeCeil_nat (cp M : Nat) (hM : 1 ≤ M) :
    jsLeCeil cp (some (.vNum (M : ℚ))) = decide (cp ≤ M) := by
  have hMq : ((M : ℕ) : ℚ) ≠ 0 := by
    exact_mod_cast Nat.one_le_iff_ne_zero.mp hM
  rw [jsLeCeil, if_neg hMq]
  exact decide_eq_decide.mpr Nat.cast_le

theorem jsLeCeil_none (cp : Nat) :
    jsLeCeil cp none = decide (cp ≤ 10) := by
  rw [jsLeCeil]
  refine decide_eq_decide.mpr ?_
  exact_mod_cast Iff.rfl

theorem pagLoop_linked_set (N M : Nat) (acts : List Action)
    (hcrit : ∀ b ∈ acts, b.critical = false) (hM : 1 ≤ M) (hMN : M < N) :
    ∀ (fuel cp bp : Nat), 1 ≤ cp → cp ≤ M → M + 1 - cp ≤ fuel →
      (cp = 1 ∨ bp = cp) →
      ((pagLoop (linkedWorld N) acts (linkedPag (some (.vNum (M : ℚ)))) {}
          fuel cp bp).1.length = M + 1 - cp) ∧
      (∀ j, Ev.checkNext j ∈ (pagLoop (linkedWorld N) acts
          (linkedPag (some (.vNum (M : ℚ)))) {} fuel cp bp).2 →
        cp ≤ j ∧ j < M) := by
  have hguardLt : ∀ cp : Nat, cp < M →
      (strTruthy (linkedPag (some (.vNum (M : ℚ)))).nextButtonSelector &&
        jsLtMax cp (linkedPag (some (.vNum (M : ℚ)))).maxPages) = true := by
    intro cp hcp
    simp only [linkedPag, jsLtMax_nat cp M hM,
      show strTruthy (some ".next") = true from rfl, Bool.true_and,
      decide_eq_true_eq]
    exact hcp
  have hguardGe : ∀ cp : Nat, M ≤ cp →
      (strTruthy (linkedPag (some (.vNum (M : ℚ)))).nextButtonSelector &&
        jsLtMax cp (linkedPag (some (.vNum (M : ℚ)))).maxPages) = false := by
    intro cp hcp
    simp only [linkedPag, jsLtMax_nat cp M hM,
      show strTruthy (some ".next") = true from rfl, Bool.true_and,
      decide_eq_false_iff_not]
    omega
  have hguardLe : ∀ cp : Nat, cp ≤ M →
      (strTruthy (linkedPag (some (.vNum (M : ℚ)))).nextButtonSelector &&
        jsLeCeil cp (linkedPag (some (.vNum (M : ℚ)))).maxPages) = true := by
    intro cp hcp
    simp only [linkedPag, jsLeCeil_nat cp M hM,
      show strTruthy (some ".next") = true from rfl, Bool.true_and,
      decide_eq_true_eq]
    exact hcp
  intro fuel
  induction fuel with
  | zero => intro cp bp h1 h2 h3 hbp; omega
  | succ n ih =>
    intro cp bp h1 h2 h3 hbp
    rw [pagLoop_succ]
    rcases Nat.lt_or_ge cp M with hcpM | hcpM
    · -- cp < M: check runs, navigation succeeds, loop continues
      have hcheck : checkAndNavigateToNextPage ((linkedWorld N).pages cp)
          ((linkedPag (some (.vNum (M : ℚ)))).nextButtonSelector.getD "") =
          true := linked_check_true N cp h1 (by omega)
      obtain ⟨d, hproc⟩ := linked_processPage_ok N cp acts hcrit
      by_cases hc1 : cp = 1
      · subst hc1
        obtain ⟨ihlen, ihev⟩ := ih 2 2 (by omega) (by omega) (by omega)
          (Or.inr rfl)
        rw [pagStep_first_success (linkedWorld N) acts
          (linkedPag (some (.vNum (M : ℚ)))) _ bp d _ rfl hproc]
        rw [if_pos (hguardLt 1 hcpM), if_pos hcheck,
          if_pos (hguardLe 2 (by omega))]
        constructor
        · simp only [List.length_cons, ihlen]
          omega
        · intro j hj
          simp only [List.mem_append, List.mem_cons, List.mem_map,
            List.not_mem_nil, or_false] at hj
          rcases hj with ((hj | hj) | hj | hj) | hj
          · exact absurd hj (by simp)
          · obtain ⟨x, -, hx⟩ := hj; exact absurd hx (by simp)
          · injection hj with hj; omega
          · cases hj
          · have := ihev j hj
            omega
      · have hbpcp : bp = cp := by
          rcases hbp with h | h
          · exact absurd h hc1
          · exact h
        subst hbpcp
        obtain ⟨ihlen, ihev⟩ := ih (bp + 1) (bp + 1) (by omega) (by omega)
          (by omega) (Or.inr rfl)
        rw [pagStep_later_success (linkedWorld N) acts
          (linkedPag (some (.vNum (M : ℚ)))) _ bp bp d _ hc1 hproc]
        rw [if_pos (hguardLt bp hcpM), if_pos hcheck,
          if_pos (hguardLe (bp + 1) (by omega))]
        constructor
        · simp only [List.length_cons, ihlen]
          omega
        · intro j hj
          simp only [List.mem_append, List.mem_cons, List.mem_map,
            List.not_mem_nil, or_false] at hj
          rcases hj with (hj | hj | hj) | hj
          · obtain ⟨x, -, hx⟩ := hj; exact absurd hx (by simp)
          · injection hj with hj; omega
          · cases hj
          · have := ihev j hj
            omega
    · -- cp = M: the inner guard fails and the loop breaks
      obtain ⟨d, hproc⟩ := linked_processPage_ok N cp acts hcrit
      by_cases hc1 : cp = 1
      · subst hc1
        rw [pagStep_first_success (linkedWorld N) acts
          (linkedPag (some (.vNum (M : ℚ)))) _ bp d _ rfl hproc]
        rw [if_neg (by rw [hguardGe 1 hcpM]; exact Bool.false_ne_true)]
        refine ⟨by simp; omega, ?_⟩
        intro j hj
        simp only [List.mem_cons, List.mem_map, List.not_mem_nil,
          or_false] at hj
        rcases hj with hj | hj
        · exact absurd hj (by simp)
        · obtain ⟨x, -, hx⟩ := hj; exact absurd hx (by simp)
      · have hbpcp : bp = cp := by
          rcases hbp with h | h
          · exact absurd h hc1
          · exact h
        subst hbpcp
        rw [pagStep_later_success (linkedWorld N) acts
          (linkedPag (some (.vNum (M : ℚ)))) _ bp bp d _ hc1 hproc]
        rw [if_neg (by rw [hguardGe bp hcpM]; exact Bool.false_ne_true)]
        refine ⟨by simp; omega, ?_⟩
        intro j hj
        simp only [List.mem_map, List.not_mem_nil, or_false] at hj
        obtain ⟨x, -, hx⟩ := hj
        exact absurd hx (by simp)

theorem pagLoop_linked_unset (N : Nat) (acts : List Action)
    (hcrit : ∀ b ∈ acts, b.critical = false) (hN : 11 ≤ N) :
    ∀ (fuel cp bp : Nat), 1 ≤ cp → cp ≤ 10 → 11 - cp ≤ fuel →
      (cp = 1 ∨ bp = cp) →
      ((pagLoop (linkedWorld N) acts (linkedPag none) {} fuel cp bp).1.length
        = 11 - cp) ∧
      Ev.checkNext 10 ∈ (pagLoop (linkedWorld N) acts (linkedPag none) {}
        fuel cp bp).2 := by
  have hguardT : ∀ c : Nat,
      (strTruthy (linkedPag none).nextButtonSelector &&
        jsLtMax c (linkedPag none).maxPages) = true := fun c => rfl
  have hguardLe : ∀ c : Nat, c ≤ 10 →
      (strTruthy (linkedPag none).nextButtonSelector &&
        jsLeCeil c (linkedPag none).maxPages) = true := by
    intro c hc
    simp only [linkedPag, jsLeCeil_none c,
      show strTruthy (some ".next") = true from rfl, Bool.true_and,
      decide_eq_true_eq]
    exact hc
  have hguardGt : ∀ c : Nat, 10 < c →
      (strTruthy (linkedPag none).nextButtonSelector &&
        jsLeCeil c (linkedPag none).maxPages) = false := by
    intro c hc
    simp only [linkedPag, jsLeCeil_none c,
      show strTruthy (some ".next") = true from rfl, Bool.true_and,
      decide_eq_false_iff_not]
    omega
  intro fuel
  induction fuel with
  | zero => intro cp bp h1 h2 h3 hbp; omega
  | succ n ih =>
    intro cp bp h1 h2 h3 hbp
    rw [pagLoop_succ]
    have hcheck : checkAndNavigateToNextPage ((linkedWorld N).pages cp)
        ((linkedPag none).nextButtonSelector.getD "") = true :=
      linked_check_true N cp h1 (by omega)
    obtain ⟨d, hproc⟩ := linked_processPage_ok N cp acts hcrit
    rcases Nat.lt_or_ge cp 10 with hcp10 | hcp10
    · -- cp < 10: loop continues
      by_cases hc1 : cp = 1
      · subst hc1
        obtain ⟨ihlen, ihev⟩ := ih 2 2 (by omega) (by omega) (by omega)
          (Or.inr rfl)
        rw [pagStep_first_success (linkedWorld N) acts (linkedPag none) _
          bp d _ rfl hproc]
        rw [if_pos (hguardT 1), if_pos hcheck,
          if_pos (hguardLe 2 (by omega))]
        refine ⟨by simp only [List.length_cons, ihlen], ?_⟩
        simp only [List.mem_append]
        exact Or.inr ihev
      · have hbpcp : bp = cp := by
          rcases hbp with h | h
          · exact absurd h hc1
          · exact h
        subst hbpcp
        obtain ⟨ihlen, ihev⟩ := ih (bp + 1) (bp + 1) (by omega) (by omega)
          (by omega) (Or.inr rfl)
        rw [pagStep_later_success (linkedWorld N) acts (linkedPag none) _
          bp bp d _ hc1 hproc]
        rw [if_pos (hguardT bp), if_pos hcheck,
          if_pos (hguardLe (bp + 1) (by omega))]
        refine ⟨by simp only [List.length_cons, ihlen]; omega, ?_⟩
        simp only [List.mem_append]
        exact Or.inr ihev
    · -- cp = 10: the check still runs, the while guard then stops the loop
      have hcp10e : cp = 10 := by omega
      subst hcp10e
      by_cases hc1 : (10 : Nat) = 1
      · exact absurd hc1 (by omega)
      · have hbpcp : bp = 10 := by
          rcases hbp with h | h
          · exact absurd h hc1
          · exact h
        subst hbpcp
        rw [pagStep_later_success (linkedWorld N) acts (linkedPag none) _
          10 10 d _ hc1 hproc]
        rw [if_pos (hguardT 10), if_pos hcheck,
          if_neg (by rw [hguardGt 11 (by omega)]; exact Bool.false_ne_true)]
        refine ⟨by simp, ?_⟩
        simp

theorem processor_ok_shape (w : World) (d : JobData)
    (hval : validate d = none) (hl : w.launchOk = true)
    (hn : w.newPageOk = true) :
    puppeteerProcessor w d =
      (.ok { success := true,
             totalPages := (pagLoop w (actionsOf d.actions) d.pagination
               d.waitConditions (fuelFor d.pagination.maxPages) 1 0).1.length,
             processingTimeMs := 0,
             results := (pagLoop w (actionsOf d.actions) d.pagination
               d.waitConditions (fuelFor d.pagination.maxPages) 1 0).1,
             summary := generateSummary (pagLoop w (actionsOf d.actions)
               d.pagination d.waitConditions
               (fuelFor d.pagination.maxPages) 1 0).1 },
       .launch :: ((pagLoop w (actionsOf d.actions) d.pagination
         d.waitConditions (fuelFor d.pagination.maxPages) 1 0).2 ++
           [.close])) := by
  unfold puppeteerProcessor mainBody
  rw [hval]
  simp [hl, hn]

/-- Counterexample to claim C3 as stated: with maxPages unset, the default
ceiling of 10 bounds the produced PageResults, but the next-page check is
not gated by that ceiling — on a 12-page linked fixture the check (and
the click-through navigation) still runs when the page index has reached
10, although 10 is not below the ceiling. -/
theorem next_check_runs_at_default_ceiling :
    ((puppeteerProcessor (linkedWorld 12) (linkedJob [] none)).1.map
      (fun jr => jr.results.length) = .ok 10) ∧
    Ev.checkNext 10 ∈
      (puppeteerProcessor (linkedWorld 12) (linkedJob [] none)).2 ∧
    ¬ (10 < 10) := by
  refine ⟨rfl, ?_, by omega⟩
  obtain ⟨-, hev⟩ := pagLoop_linked_unset 12 [] (by simp) (by omega)
    12 1 0 (by omega) (by omega) (by omega) (Or.inl rfl)
  rw [processor_ok_shape (linkedWorld 12) (linkedJob [] none) rfl rfl rfl]
  simp only [List.mem_cons, List.mem_append]
  exact Or.inr (Or.inl hev)

/-- Claim C3 (amended): against a source of N linked pages, with
maxPages = M < N exactly M PageResults are produced and next-page
checking runs only while the page index is below M; when maxPages is
unset the do-while ceiling defaults to 10, so (with at least 11 linked
pages) exactly 10 PageResults are produced, but the next-page check
itself is not gated by the default ceiling: it still runs on page 10. -/
theorem maxpages_bounds_page_results (N M : Nat) (acts : List Action)
    (hcrit : ∀ b ∈ acts, b.critical = false) (hM : 1 ≤ M) (hMN : M < N) :
    ((puppeteerProcessor (linkedWorld N)
        (linkedJob acts (some (.vNum (M : ℚ))))).1.map
      (fun jr => jr.results.length) = .ok M) ∧
    (∀ j, Ev.checkNext j ∈ (puppeteerProcessor (linkedWorld N)
        (linkedJob acts (some (.vNum (M : ℚ))))).2 → j < M) ∧
    (11 ≤ N →
      ((puppeteerProcessor (linkedWorld N) (linkedJob acts none)).1.map
        (fun jr => jr.results.length) = .ok 10) ∧
      Ev.checkNext 10 ∈ (puppeteerProcessor (linkedWorld N)
        (linkedJob acts none)).2) := by
  have h1 : ¬ ((M : ℕ) : ℚ) = 0 := by
    exact_mod_cast Nat.one_le_iff_ne_zero.mp hM
  have h2 : (1 : ℚ) ≤ ((M : ℕ) : ℚ) := by exact_mod_cast hM
  have hjt : jsTruthy (.vNum ((M : ℕ) : ℚ)) = true := by
    simp [jsTruthy, h1]
  have hd2 : decide ((1 : ℚ) ≤ ((M : ℕ) : ℚ)) = true := decide_eq_true h2
  have hval : validate (linkedJob acts (some (.vNum (M : ℚ)))) = none := by
    simp [validate, linkedJob, linkedPag, hjt, hd2,
      show jsTruthy (JSVal.vStr "https://linked.test/") = true from by decide,
      show startsHttp "https://linked.test/" = true from by decide]
    omega
  have hfuel : fuelFor (some (.vNum ((M : ℕ) : ℚ))) = M + 12 := by
    simp [fuelFor, Rat.ceil, Rat.den_natCast, Rat.num_natCast]
  refine ⟨?_, ?_, ?_⟩
  · rw [processor_ok_shape (linkedWorld N) _ hval rfl rfl]
    obtain ⟨hlen, -⟩ := pagLoop_linked_set N M acts hcrit hM hMN (M + 12)
      1 0 (by omega) hM (by omega) (Or.inl rfl)
    rw [show (linkedJob acts (some (.vNum (M : ℚ)))).pagination =
        linkedPag (some (.vNum (M : ℚ))) from rfl,
      show actionsOf (linkedJob acts (some (.vNum (M : ℚ)))).actions = acts
        from rfl,
      show (linkedJob acts (some (.vNum (M : ℚ)))).waitConditions =
        ({} : WaitConditions) from rfl,
      show (linkedPag (some (.vNum (M : ℚ)))).maxPages =
        some (.vNum (M : ℚ)) from rfl, hfuel]
    simp only [Except.map, hlen]
    rw [show M + 1 - 1 = M from by omega]
  · intro j hj
    rw [processor_ok_shape (linkedWorld N) _ hval rfl rfl] at hj
    obtain ⟨-, hev⟩ := pagLoop_linked_set N M acts hcrit hM hMN (M + 12)
      1 0 (by omega) hM (by omega) (Or.inl rfl)
    rw [show (linkedJob acts (some (.vNum (M : ℚ)))).pagination =
        linkedPag (some (.vNum (M : ℚ))) from rfl,
      show actionsOf (linkedJob acts (some (.vNum (M : ℚ)))).actions = acts
        from rfl,
      show (linkedJob acts (some (.vNum (M : ℚ)))).waitConditions =
        ({} : WaitConditions) from rfl,
      show (linkedPag (some (.vNum (M : ℚ)))).maxPages =
        some (.vNum (M : ℚ)) from rfl, hfuel] at hj
    simp only [List.mem_cons, List.mem_append, List.mem_singleton] at hj
    rcases hj with hj | hj | hj | hj
    · cases hj
    · exact (hev j hj).2
    · cases hj
    · cases hj
  · intro hN
    have hval2 : validate (linkedJob acts none) = none := rfl
    obtain ⟨hlen, hev⟩ := pagLoop_linked_unset N acts hcrit hN 12 1 0
      (by omega) (by omega) (by omega) (Or.inl rfl)
    constructor
    · rw [processor_ok_shape (linkedWorld N) _ hval2 rfl rfl]
      rw [show (linkedJob acts none).pagination = linkedPag none from rfl,
        show actionsOf (linkedJob acts none).actions = acts from rfl,
        show (linkedJob acts none).waitConditions = ({} : WaitConditions)
          from rfl,
        show fuelFor (linkedPag none).maxPages = 12 from rfl]
      simp only [Except.map, hlen]
    · rw [processor_ok_shape (linkedWorld N) _ hval2 rfl rfl]
      rw [show (linkedJob acts none).pagination = linkedPag none from rfl,
        show actionsOf (linkedJob acts none).actions = acts from rfl,
        show (linkedJob acts none).waitConditions = ({} : WaitConditions)
          from rfl,
        show fuelFor (linkedPag none).maxPages = 12 from rfl]
      simp only [List.mem_cons, List.mem_append]
      exact Or.inr (Or.inl hev)

theorem maxpages_bounds_page_results_witness :
    ((puppeteerProcessor (linkedWorld 3)
        (linkedJob [] (some (.vNum ((2 : ℕ) : ℚ))))).1.map
      (fun jr => jr.results.length) = .ok 2) ∧
    Ev.checkNext 10 ∈
      (puppeteerProcessor (linkedWorld 12) (linkedJob [] none)).2 := by
  constructor
  · exact (maxpages_bounds_page_results 3 2 [] (by simp) (by omega)
      (by omega)).1
  · exact ((maxpages_bounds_page_results 12 1 [] (by simp) (by omega)
      (by omega)).2.2 (by omega)).2

end AutoEntry
